import Mathlib

/-!
Shallow embedding of the two numeric cores of the repository:
`kronos-service/app.py` (momentum signal estimator) and
`src/scripts/freqtrade-hyperopt/balanced_hyperopt_loss.py`
(the three hyperopt loss variants).

Python float64 values are modelled by `F`: exact rationals together with the
IEEE special values `pinf`, `ninf`, `nan`.  Finite arithmetic is exact
(binary64 rounding and overflow are abstracted away); the special values
follow the IEEE-754 propagation rules as realised by CPython/numpy for
exactly the operations the source uses (`<`/`<=` comparisons are false on
NaN, Python's `max`/`min` keep the first argument when a comparison with NaN
fails, `x or default` tests Python float truthiness, i.e. only `0.0` is
falsy).  The transcendental primitives — `math.exp` and the square root
inside `np.std` — are modelled by caller-supplied functions on the rational
part; theorems assume only the properties of those primitives they actually
need (positivity of exp, nonnegativity of sqrt).  Float division by an exact
zero would raise `ZeroDivisionError` in Python; every division in the source
is guarded, so the unreachable `F.fdiv _ (F.fin 0)` case is mapped to `nan`.
-/

inductive F where
  | fin : ℚ → F
  | pinf : F
  | ninf : F
  | nan : F
deriving DecidableEq

namespace F

/-- Python `math.isfinite`. -/
def isFinite : F → Bool
  | fin _ => true
  | _ => false

/-- numpy `np.isnan`. -/
def isNan : F → Bool
  | nan => true
  | _ => false

/-- IEEE negation. -/
def fneg : F → F
  | fin q => fin (-q)
  | pinf => ninf
  | ninf => pinf
  | nan => nan

/-- IEEE addition (exact on finite values). -/
def fadd : F → F → F
  | nan, _ => nan
  | _, nan => nan
  | fin a, fin b => fin (a + b)
  | fin _, pinf => pinf
  | fin _, ninf => ninf
  | pinf, fin _ => pinf
  | ninf, fin _ => ninf
  | pinf, pinf => pinf
  | ninf, ninf => ninf
  | pinf, ninf => nan
  | ninf, pinf => nan

/-- IEEE subtraction, `a - b = a + (-b)`. -/
def fsub (a b : F) : F := fadd a (fneg b)

/-- IEEE multiplication (`0 * inf = nan`). -/
def fmul : F → F → F
  | nan, _ => nan
  | _, nan => nan
  | fin a, fin b => fin (a * b)
  | fin a, pinf => if a = 0 then nan else if 0 < a then pinf else ninf
  | fin a, ninf => if a = 0 then nan else if 0 < a then ninf else pinf
  | pinf, fin a => if a = 0 then nan else if 0 < a then pinf else ninf
  | ninf, fin a => if a = 0 then nan else if 0 < a then ninf else pinf
  | pinf, pinf => pinf
  | pinf, ninf => ninf
  | ninf, pinf => ninf
  | ninf, ninf => pinf

/-- IEEE division.  Division of a finite value by an exact zero raises
`ZeroDivisionError` in Python; that case is unreachable in the embedded
code (every such division is guarded) and is mapped to `nan`. -/
def fdiv : F → F → F
  | nan, _ => nan
  | _, nan => nan
  | fin a, fin b => if b = 0 then nan else fin (a / b)
  | fin _, pinf => fin 0
  | fin _, ninf => fin 0
  | pinf, fin b => if b = 0 then nan else if 0 < b then pinf else ninf
  | ninf, fin b => if b = 0 then nan else if 0 < b then ninf else pinf
  | pinf, pinf => nan
  | pinf, ninf => nan
  | ninf, pinf => nan
  | ninf, ninf => nan

/-- Absolute value on floats. -/
def fabs : F → F
  | fin q => fin |q|
  | pinf => pinf
  | ninf => pinf
  | nan => nan

/-- IEEE `<` (false whenever either side is NaN). -/
def blt : F → F → Bool
  | fin a, fin b => decide (a < b)
  | fin _, pinf => true
  | ninf, fin _ => true
  | ninf, pinf => true
  | _, _ => false

/-- IEEE `<=` (false whenever either side is NaN). -/
def ble : F → F → Bool
  | fin a, fin b => decide (a ≤ b)
  | fin _, pinf => true
  | ninf, fin _ => true
  | ninf, pinf => true
  | ninf, ninf => true
  | pinf, pinf => true
  | _, _ => false

/-- Python `x != 0` on a float (true for NaN and infinities). -/
def bne0 : F → Bool
  | fin a => decide (a ≠ 0)
  | _ => true

/-- Python float truthiness test: only `0.0` is falsy. -/
def falsy : F → Bool
  | fin a => decide (a = 0)
  | _ => false

/-- CPython `max(a, b)`: returns `b` iff `b > a`, so the first argument is
kept when the comparison involves NaN. -/
def pymax (a b : F) : F := if blt a b then b else a

/-- CPython `min(a, b)`: returns `b` iff `b < a`. -/
def pymin (a b : F) : F := if blt b a then b else a

/-- Python `x or 1.0` on a float. -/
def orOne (x : F) : F := if falsy x then fin 1 else x

/-- Python `math.exp`, with the finite branch given by the abstract primitive `e`
(exact overflow of binary64 is not modelled). -/
def fexpWith (e : ℚ → ℚ) : F → F
  | fin q => fin (e q)
  | pinf => pinf
  | ninf => fin 0
  | nan => nan

/-- numpy square root, with the finite branch given by the abstract
primitive `sq`; negative finite arguments give NaN. -/
def fsqrtWith (sq : ℚ → ℚ) : F → F
  | fin q => if q < 0 then nan else fin (sq q)
  | pinf => pinf
  | ninf => nan
  | nan => nan

/-- Python `sum` over a list of floats (left fold starting at `0`). -/
def fsum (l : List F) : F := l.foldl fadd (fin 0)

instance : Add F := ⟨fadd⟩
instance : Sub F := ⟨fsub⟩
instance : Mul F := ⟨fmul⟩
instance : Div F := ⟨fdiv⟩
instance : Neg F := ⟨fneg⟩

@[simp] theorem add_def (a b : F) : a + b = fadd a b := rfl

@[simp] theorem sub_def (a b : F) : a - b = fsub a b := rfl

@[simp] theorem mul_def (a b : F) : a * b = fmul a b := rfl

@[simp] theorem div_def (a b : F) : a / b = fdiv a b := rfl

@[simp] theorem neg_def (a : F) : -a = fneg a := rfl

@[simp] theorem fneg_fin (a : ℚ) : fneg (fin a) = fin (-a) := rfl

@[simp] theorem fadd_fin_fin (a b : ℚ) : fadd (fin a) (fin b) = fin (a + b) := rfl

@[simp] theorem fsub_fin_fin (a b : ℚ) : fsub (fin a) (fin b) = fin (a - b) := by
  simp [fsub, fadd, fneg, sub_eq_add_neg]

@[simp] theorem fmul_fin_fin (a b : ℚ) : fmul (fin a) (fin b) = fin (a * b) := rfl

@[simp] theorem fabs_fin (a : ℚ) : fabs (fin a) = fin |a| := rfl

@[simp] theorem blt_fin_fin (a b : ℚ) : blt (fin a) (fin b) = decide (a < b) := rfl

@[simp] theorem ble_fin_fin (a b : ℚ) : ble (fin a) (fin b) = decide (a ≤ b) := rfl

@[simp] theorem bne0_fin (a : ℚ) : bne0 (fin a) = decide (a ≠ 0) := rfl

@[simp] theorem falsy_fin (a : ℚ) : falsy (fin a) = decide (a = 0) := rfl

@[simp] theorem isFinite_fin (a : ℚ) : isFinite (fin a) = true := rfl

theorem fdiv_fin_fin {b : ℚ} (a : ℚ) (hb : b ≠ 0) :
    fdiv (fin a) (fin b) = fin (a / b) := by
  simp [fdiv, hb]

theorem pymax_fin_fin (a b : ℚ) : pymax (fin a) (fin b) = fin (max a b) := by
  rcases lt_or_le a b with h | h
  · simp [pymax, blt, h, max_eq_right h.le]
  · simp [pymax, blt, not_lt.mpr h, max_eq_left h]

theorem pymin_fin_fin (a b : ℚ) : pymin (fin a) (fin b) = fin (min a b) := by
  rcases lt_or_le b a with h | h
  · simp [pymin, blt, h, min_eq_right h.le]
  · simp [pymin, blt, not_lt.mpr h, min_eq_left h]

end F

/-- Sanitizer `clamp01` from `kronos-service/app.py`: non-finite values become `0.0`,
finite values are clamped to `[0, 1]` via `max(0.0, min(1.0, x))`. -/
def clamp01 (x : F) : F :=
  if x.isFinite then F.pymax (F.fin 0) (F.pymin (F.fin 1) x) else F.fin 0

theorem clamp01_fin (a : ℚ) : clamp01 (F.fin a) = F.fin (max 0 (min 1 a)) := by
  simp [clamp01, F.pymin_fin_fin, F.pymax_fin_fin]

/-- Outputs of `clamp01` are always finite values in `[0, 1]`. -/
theorem clamp01_in01 (x : F) : ∃ q : ℚ, clamp01 x = F.fin q ∧ 0 ≤ q ∧ q ≤ 1 := by
  cases x with
  | fin a =>
      exact ⟨max 0 (min 1 a), clamp01_fin a, le_max_left 0 _,
        max_le zero_le_one (min_le_left 1 a)⟩
  | pinf => exact ⟨0, rfl, le_refl 0, zero_le_one⟩
  | ninf => exact ⟨0, rfl, le_refl 0, zero_le_one⟩
  | nan => exact ⟨0, rfl, le_refl 0, zero_le_one⟩

/-- One OHLCV row `[timestamp(ms), open, high, low, close, volume]` of the
forecast request (`kronos-service/app.py`). -/
structure Bar where
  ts : F
  opn : F
  high : F
  low : F
  close : F
  volume : F
deriving DecidableEq

/-- The `{"long", "short", "conf"}` dictionary returned by `simple_signal`. -/
structure SignalResult where
  long : F
  short : F
  conf : F
deriving DecidableEq

/-- The slope computed by `simple_signal` for a window of at least 10 bars:
closes of at most the last 200 bars, `avg20` the mean of the last
`min(20, n2)` closes, `vol` the mean absolute first difference (or `1.0`
when that mean is `0.0`), and `slope = (last - avg20) / vol`. -/
def signalSlope (ohlcv : List Bar) : F :=
  let n := ohlcv.length
  let closes := (ohlcv.drop (n - 200)).map Bar.close
  let n2 := closes.length
  let avg20 := F.fsum (closes.drop (n2 - 20)) / F.fin (max 1 (min 20 n2) : ℕ)
  let lastClose := closes.getLastD F.nan
  let diffs := List.zipWith (fun p c => F.fabs (c - p)) closes closes.tail
  let vol := F.orOne (F.fsum diffs / F.fin (max 1 diffs.length : ℕ))
  (lastClose - avg20) / vol

/-- Estimator `simple_signal` from `kronos-service/app.py`; `e` models `math.exp` on
finite arguments. -/
def simple_signal (e : ℚ → ℚ) (ohlcv : List Bar) : SignalResult :=
  let n := ohlcv.length
  if n < 10 then ⟨F.fin (1/2), F.fin (1/2), F.fin (2/5)⟩
  else
    let slope := signalSlope ohlcv
    let long_score := F.fin 1 / (F.fin 1 + F.fexpWith e (-slope))
    let short_score := F.fin 1 - long_score
    let conf := F.pymin (F.fin (9/10))
      (F.fin (2/5) + F.fin (1/2) * clamp01 (F.fabs slope / F.fin 3)
        + F.fin (1/10) * clamp01 (F.fin (n : ℕ) / F.fin 480))
    ⟨clamp01 long_score, clamp01 short_score, clamp01 conf⟩

/-- numpy `np.mean` of a (nonempty, in all uses) list of floats. -/
def npMean (l : List F) : F := F.fsum l / F.fin (l.length : ℕ)

/-- numpy `np.std` (population standard deviation): square root of the mean of the
squared deviations from the mean; `sq` models the square-root primitive on
the rational part. -/
def npStdWith (sq : ℚ → ℚ) (l : List F) : F :=
  F.fsqrtWith sq (npMean (l.map fun x => (x - npMean l) * (x - npMean l)))

/-- The backtest `results` dictionary fields consumed by the three loss
functions of `balanced_hyperopt_loss.py`.  `profit_factor` is the only
nullable field (`None` is modelled by `none`); NaN-capable values are
carried by `F` itself. -/
structure Results where
  winrate : F
  avg_profit_ratio : F
  avg_loss_ratio : F
  profit_factor : Option F
  backtest_days : F
  max_drawdown : F
  profit_total_pct : F
deriving DecidableEq

/-- Variant A's profit-factor sanitization:
`if pf is None or np.isnan(pf): pf = 0`. -/
def pfSan : Option F → F
  | none => F.fin 0
  | some v => if v.isNan then F.fin 0 else v

/-- V2/Conservative profit-factor handling:
`pf = results.get("profit_factor", 0) or 0` — only a falsy value
(`None` or `0.0`) is replaced; NaN is truthy in Python and survives. -/
def pfOr0 : Option F → F
  | none => F.fin 0
  | some v => if v.falsy then F.fin 0 else v

/-- Weekly trade frequency `trades_per_week = (trade_count / max(total_days, 1)) * 7`. -/
def tradesPerWeekA (trade_count : ℕ) (total_days : F) : F :=
  F.fin (trade_count : ℕ) / F.pymax total_days (F.fin 1) * F.fin 7

/-- Variant A's bell-shaped trade-frequency score (`balanced_hyperopt_loss.py`
lines 67-79). -/
def freqScoreA (tpw : F) : F :=
  if F.blt tpw (F.fin 1) then tpw
  else if F.blt (F.fin 20) tpw then
    F.pymax (F.fin (3/10)) (F.fin 1 - (tpw - F.fin 20) / F.fin 30)
  else if F.ble (F.fin 5) tpw && F.ble tpw (F.fin 15) then F.fin 1
  else if F.blt tpw (F.fin 5) then F.fin (4/5) + (tpw - F.fin 1) * F.fin (1/20)
  else F.fin 1 - (tpw - F.fin 15) * F.fin (1/25)

/-- Variant A's sample-sufficiency multiplier. -/
def samplePenaltyA (trade_count : ℕ) : F :=
  if trade_count < 10 then F.fin (1/2)
  else if trade_count < 30 then F.fin (7/10 + ((trade_count : ℚ) - 10) * (3/200))
  else F.fin 1

/-- Variant A, `BalancedHyperOptLoss.hyperopt_loss_function`; `sq` models
the square root inside `np.std`. -/
def hyperoptLossBalanced (sq : ℚ → ℚ) (results : Results) (trade_count : ℕ) : F :=
  if trade_count = 0 then F.fin 100
  else
    let winrate := results.winrate * F.fin 100
    let avg_profit := results.avg_profit_ratio
    let avg_loss := results.avg_loss_ratio
    let rr := if F.bne0 avg_loss then F.fabs (avg_profit / avg_loss)
      else if F.ble avg_profit (F.fin 0) then F.fin 0 else F.fin 10
    let pf := pfSan results.profit_factor
    let trades_per_week := tradesPerWeekA trade_count results.backtest_days
    let maxdd := F.fabs results.max_drawdown * F.fin 100
    let total_return := results.profit_total_pct
    let winrate_score := F.pymin (winrate / F.fin 55) (F.fin (3/2))
    let rr_score := F.pymin (rr / F.fin (6/5)) (F.fin 2)
    let pf_score := F.pymin (pf / F.fin (13/10)) (F.fin 2)
    let return_score := F.pymax (F.fin 0) (F.pymin (total_return / F.fin 10) (F.fin (3/2)))
    let drawdown_score := F.pymax (F.fin 0) (F.fin 1 - maxdd / F.fin 20)
    let freq_score := freqScoreA trades_per_week
    let scores := [winrate_score, rr_score, pf_score, drawdown_score, freq_score]
    let std_score := npStdWith sq scores
    let stability_bonus := F.pymax (F.fin 0) (F.fin 1 - std_score) * F.fin (1/10)
    let sample_penalty := samplePenaltyA trade_count
    let weighted_score :=
      winrate_score * F.fin (1/5) + rr_score * F.fin (1/4) + pf_score * F.fin (1/4)
        + return_score * F.fin (3/20) + drawdown_score * F.fin (3/20)
    let composite := (weighted_score + stability_bonus) * freq_score * sample_penalty
    let final_score :=
      if F.ble pf (F.fin 0) || F.ble total_return (F.fin (-10)) then F.fin (1/10)
      else if F.blt winrate (F.fin 20) then F.fin (1/5)
      else if F.blt (F.fin 50) maxdd then F.fin (1/5)
      else composite
    F.fneg final_score

/-- V2's strict balance score (`balanced_hyperopt_loss.py` lines 156-163):
relative deviations from the fixed targets (winrate 50, RR 1.5, PF 1.3) and
a one-sided drawdown penalty against target 15, combined as
`1 / (1 + sum)`. -/
def balanceScoreV2 (winrate rr pf maxdd : F) : F :=
  let winrate_dev := F.fabs (winrate - F.fin 50) / F.fin 50
  let rr_dev := if (0 : ℚ) < 3/2 then F.fabs (rr - F.fin (3/2)) / F.fin (3/2) else F.fin 1
  let pf_dev := if (0 : ℚ) < 13/10 then F.fabs (pf - F.fin (13/10)) / F.fin (13/10) else F.fin 1
  let dd_penalty := F.pymax (F.fin 0) ((maxdd - F.fin 15) / F.fin 15)
  F.fin 1 / (F.fin 1 + winrate_dev + rr_dev + pf_dev + dd_penalty)

/-- Variant B, `BalancedHyperOptLossV2.hyperopt_loss_function`. -/
def hyperoptLossBalancedV2 (results : Results) (trade_count : ℕ) : F :=
  if trade_count = 0 then F.fin 100
  else
    let winrate := results.winrate * F.fin 100
    let avg_profit := results.avg_profit_ratio
    let avg_loss := results.avg_loss_ratio
    let rr := if F.bne0 avg_loss then F.fabs (avg_profit / avg_loss) else F.fin 0
    let pf := pfOr0 results.profit_factor
    let trades_per_week := tradesPerWeekA trade_count results.backtest_days
    let maxdd := F.fabs results.max_drawdown * F.fin 100
    let total_return := results.profit_total_pct
    let balance_score := balanceScoreV2 winrate rr pf maxdd
    let performance_score := F.pymin (F.fin 1) (F.pymax (F.fin 0) (total_return / F.fin 15))
    let freq_score :=
      if F.ble (F.fin 3) trades_per_week && F.ble trades_per_week (F.fin 12) then F.fin 1
      else F.pymax (F.fin (3/10))
        (F.fin 1 - F.fabs (trades_per_week - F.fin (15/2)) / F.fin 15)
    let composite := balance_score * F.fin (3/5) + performance_score * F.fin (3/10)
      + freq_score * F.fin (1/10)
    let final_score := if trade_count < 20 then composite * F.fin (1/2) else composite
    F.fneg final_score

/-- Variant C, `ConservativeHyperOptLoss.hyperopt_loss_function`.  The
risk/reward value computed by the source is dead code there and is kept as
an unused binding. -/
def hyperoptLossConservative (results : Results) (trade_count : ℕ) : F :=
  if trade_count = 0 then F.fin 100
  else
    let winrate := results.winrate * F.fin 100
    let avg_profit := results.avg_profit_ratio
    let avg_loss := results.avg_loss_ratio
    let _rr := if F.bne0 avg_loss then F.fabs (avg_profit / avg_loss) else F.fin 0
    let pf := pfOr0 results.profit_factor
    let maxdd := F.fabs results.max_drawdown * F.fin 100
    let total_return := results.profit_total_pct
    let risk_score := F.pymax (F.fin 0) (F.fin 1 - maxdd / F.fin 10)
    let stability_score := F.pymin (winrate / F.fin 60) (F.fin 1)
    let profit_score := F.pymin (pf / F.fin (6/5)) (F.fin (3/2))
    let return_score := F.pymax (F.fin 0) (F.pymin (total_return / F.fin 8) (F.fin 1))
    let composite := risk_score * F.fin (2/5) + stability_score * F.fin (3/10)
      + profit_score * F.fin (1/5) + return_score * F.fin (1/10)
    let final_score :=
      if F.blt (F.fin 20) maxdd || F.blt winrate (F.fin 40) || F.blt pf (F.fin 1) then
        composite * F.fin (3/10)
      else composite
    F.fneg final_score

theorem F.isFinite_iff {x : F} : x.isFinite = true ↔ ∃ q : ℚ, x = F.fin q := by
  cases x <;> simp [F.isFinite]

theorem foldl_fadd_fin :
    ∀ (l : List F) (a : ℚ), (∀ x ∈ l, x.isFinite = true) →
      ∃ q : ℚ, l.foldl F.fadd (F.fin a) = F.fin q := by
  intro l
  induction l with
  | nil => exact fun a _ => ⟨a, rfl⟩
  | cons x xs ih =>
      intro a h
      obtain ⟨qx, hx⟩ := F.isFinite_iff.mp (h x (List.mem_cons_self x xs))
      subst hx
      simpa using ih (a + qx) fun y hy => h y (List.mem_cons_of_mem _ hy)

theorem fsum_fin {l : List F} (h : ∀ x ∈ l, x.isFinite = true) :
    ∃ q : ℚ, F.fsum l = F.fin q :=
  foldl_fadd_fin l 0 h

theorem getLastD_mem_of_ne_nil {l : List F} (h : l ≠ []) (d : F) :
    l.getLastD d ∈ l := by
  rw [List.getLastD_eq_getLast? d l]
  cases hl : l.getLast? with
  | none => exact absurd (List.getLast?_eq_none_iff.mp hl) h
  | some a => simpa using List.mem_of_mem_getLast? hl

theorem mem_zipWith {f : F → F → F} :
    ∀ {l1 l2 : List F} {x : F}, x ∈ List.zipWith f l1 l2 →
      ∃ a ∈ l1, ∃ b ∈ l2, x = f a b := by
  intro l1
  induction l1 with
  | nil => intro l2 x h; simp at h
  | cons a as ih =>
      intro l2 x h
      cases l2 with
      | nil => simp at h
      | cons b bs =>
          simp only [List.zipWith, List.mem_cons] at h
          rcases h with h | h
          · exact ⟨a, List.mem_cons_self a as, b, List.mem_cons_self b bs, h⟩
          · obtain ⟨a2, ha, b2, hb, hx⟩ := ih h
            exact ⟨a2, List.mem_cons_of_mem a ha, b2, List.mem_cons_of_mem b hb, hx⟩

/-- With every close in the window finite, the slope is a finite value:
the mean-absolute-difference volatility proxy is replaced by `1.0` exactly
when it is `0.0`, so the final division has a nonzero finite denominator. -/
theorem signalSlope_fin (ohlcv : List Bar) (h10 : 10 ≤ ohlcv.length)
    (hfin : ∀ b ∈ ohlcv, b.close.isFinite = true) :
    ∃ s : ℚ, signalSlope ohlcv = F.fin s := by
  have hclosefin : ∀ x ∈ (ohlcv.drop (ohlcv.length - 200)).map Bar.close,
      x.isFinite = true := by
    intro x hx
    obtain ⟨b, hb, rfl⟩ := List.mem_map.mp hx
    exact hfin b (List.mem_of_mem_drop hb)
  set closes := (ohlcv.drop (ohlcv.length - 200)).map Bar.close with hcloses
  have hne : closes ≠ [] := by
    have : closes.length = min 200 ohlcv.length := by
      simp [hcloses, Nat.sub_sub_self, List.length_drop]
      omega
    intro hempty
    rw [hempty] at this
    simp at this
    omega
  -- avg20 is finite
  obtain ⟨qa, hqa⟩ := fsum_fin (l := closes.drop (closes.length - 20))
    (fun x hx => hclosefin x (List.mem_of_mem_drop hx))
  have hden : ((max 1 (min 20 closes.length) : ℕ) : ℚ) ≠ 0 :=
    Nat.cast_ne_zero.mpr
      (Nat.pos_iff_ne_zero.mp (lt_of_lt_of_le Nat.zero_lt_one (le_max_left _ _)))
  -- last close is finite
  obtain ⟨ql, hql⟩ := F.isFinite_iff.mp (hclosefin _ (getLastD_mem_of_ne_nil hne F.nan))
  -- all diffs are finite
  have hdiffs : ∀ x ∈ List.zipWith (fun p c => F.fabs (c - p)) closes closes.tail,
      x.isFinite = true := by
    intro x hx
    obtain ⟨a, ha, b, hb, rfl⟩ := mem_zipWith hx
    obtain ⟨q1, h1⟩ := F.isFinite_iff.mp (hclosefin a ha)
    obtain ⟨q2, h2⟩ := F.isFinite_iff.mp (hclosefin b (List.mem_of_mem_tail hb))
    subst h1; subst h2
    simp [F.fabs]
  obtain ⟨qd, hqd⟩ := fsum_fin hdiffs
  have hdden : ((max 1 (List.zipWith (fun p c => F.fabs (c - p)) closes closes.tail).length : ℕ) : ℚ) ≠ 0 :=
    Nat.cast_ne_zero.mpr
      (Nat.pos_iff_ne_zero.mp (lt_of_lt_of_le Nat.zero_lt_one (le_max_left _ _)))
  -- assemble
  simp only [signalSlope]
  rw [← hcloses]
  simp only [F.div_def, F.sub_def] at hqd hdden ⊢
  rw [hqa, hql, hqd]
  rw [F.fdiv_fin_fin _ hden, F.fdiv_fin_fin _ hdden, F.fsub_fin_fin]
  by_cases hv0 : qd / ((max 1 (List.zipWith (fun p c => F.fabs (F.fsub c p)) closes closes.tail).length : ℕ) : ℚ) = 0
  · rw [hv0]
    simp only [F.orOne, F.falsy_fin, decide_True, if_true]
    rw [F.fdiv_fin_fin _ (one_ne_zero (α := ℚ))]
    exact ⟨_, rfl⟩
  · simp only [F.orOne, F.falsy_fin, hv0, decide_False, Bool.false_eq_true, if_false]
    rw [F.fdiv_fin_fin _ hv0]
    exact ⟨_, rfl⟩

/-- Unfolding of `simple_signal` on windows of at least 10 bars. -/
theorem simple_signal_of_ge (e : ℚ → ℚ) (ohlcv : List Bar) (h : ¬ ohlcv.length < 10) :
    simple_signal e ohlcv =
      ⟨clamp01 (F.fin 1 / (F.fin 1 + F.fexpWith e (-signalSlope ohlcv))),
        clamp01 (F.fin 1 - F.fin 1 / (F.fin 1 + F.fexpWith e (-signalSlope ohlcv))),
        clamp01 (F.pymin (F.fin (9/10))
          (F.fin (2/5) + F.fin (1/2) * clamp01 (F.fabs (signalSlope ohlcv) / F.fin 3)
            + F.fin (1/10) * clamp01 (F.fin (ohlcv.length : ℚ) / F.fin 480)))⟩ := by
  simp only [simple_signal]
  rw [if_neg h]

/-- On windows of at least 10 bars the confidence is a finite value in
`[0.4, 0.9]`: the two weighted `clamp01` terms are nonnegative, and the
`min(0.9, _)` cap bounds the sum from above. -/
theorem conf_shape (e : ℚ → ℚ) (ohlcv : List Bar) (h : ¬ ohlcv.length < 10) :
    ∃ q : ℚ, (simple_signal e ohlcv).conf = F.fin q ∧ 2/5 ≤ q ∧ q ≤ 9/10 := by
  obtain ⟨a, ha, ha0, ha1⟩ := clamp01_in01 (F.fabs (signalSlope ohlcv) / F.fin 3)
  obtain ⟨b, hb, hb0, hb1⟩ := clamp01_in01 (F.fin (ohlcv.length : ℚ) / F.fin 480)
  rw [simple_signal_of_ge e ohlcv h]
  simp only [ha, hb, F.add_def, F.mul_def, F.fmul_fin_fin, F.fadd_fin_fin]
  rw [F.pymin_fin_fin, clamp01_fin]
  refine ⟨_, rfl, ?_, ?_⟩
  · have hX : (2/5 : ℚ) ≤ 2/5 + 1/2 * a + 1/10 * b := by linarith
    have h1 : (2/5 : ℚ) ≤ min (9/10) (2/5 + 1/2 * a + 1/10 * b) := le_min (by norm_num) hX
    have h2 : (2/5 : ℚ) ≤ min 1 (min (9/10) (2/5 + 1/2 * a + 1/10 * b)) :=
      le_min (by norm_num) h1
    exact le_trans h2 (le_max_right _ _)
  · exact max_le (by norm_num) (le_trans (min_le_right _ _) (min_le_left _ _))

/-- C9: for every input list of OHLCV rows the confidence lies in
`[0.4, 0.9]`: it is exactly `0.4` when fewer than 10 bars are supplied, and
otherwise `min(0.9, 0.4 + nonnegative clamped terms)`, so it never falls
below the `0.4` neutral prior and never exceeds `0.9`. -/
theorem c9_confidence_range (e : ℚ → ℚ) (ohlcv : List Bar) :
    (ohlcv.length < 10 → (simple_signal e ohlcv).conf = F.fin (2/5)) ∧
    ∃ q : ℚ, (simple_signal e ohlcv).conf = F.fin q ∧ 2/5 ≤ q ∧ q ≤ 9/10 := by
  by_cases h : ohlcv.length < 10
  · exact ⟨fun _ => by simp [simple_signal, h],
      ⟨2/5, by simp [simple_signal, h], le_refl _, by norm_num⟩⟩
  · exact ⟨fun hlt => absurd hlt h, conf_shape e ohlcv h⟩

theorem c9_witness :
    ([] : List Bar).length < 10 ∧ (simple_signal (fun _ => 1) []).conf = F.fin (2/5) :=
  ⟨by decide, (c9_confidence_range (fun _ => 1) []).1 (by decide)⟩

/-- C10: the estimator's output depends only on the number of rows and the
close of each row — two windows of equal length whose rows agree pairwise on
the close field give identical results. -/
theorem c10_close_only (e : ℚ → ℚ) (b1 b2 : List Bar)
    (hlen : b1.length = b2.length)
    (hclose : b1.map Bar.close = b2.map Bar.close) :
    simple_signal e b1 = simple_signal e b2 := by
  have hc : (b1.drop (b1.length - 200)).map Bar.close
      = (b2.drop (b2.length - 200)).map Bar.close := by
    rw [List.map_drop, List.map_drop, hclose, hlen]
  have hslope : signalSlope b1 = signalSlope b2 := by
    simp only [signalSlope]
    rw [hc]
  simp only [simple_signal]
  rw [hlen, hslope]

theorem c10_witness :
    simple_signal (fun _ => 1)
        [⟨F.fin 0, F.fin 1, F.fin 2, F.fin 3, F.fin 4, F.fin 5⟩]
      = simple_signal (fun _ => 1)
        [⟨F.fin 9, F.fin 8, F.fin 7, F.fin 6, F.fin 4, F.fin 2⟩] :=
  c10_close_only (fun _ => 1) _ _ rfl rfl

/-- A bar whose only nonzero field is the close (auxiliary for concrete
inputs). -/
def mkBar (c : ℚ) : Bar := ⟨F.fin 0, F.fin 0, F.fin 0, F.fin 0, F.fin c, F.fin 0⟩

/-- Ten bars whose closes are nine zeros followed by 100: the computed slope
is 8.1, deep inside the `|slope| >= 3` saturation regime. -/
def c3Bars : List Bar :=
  [mkBar 0, mkBar 0, mkBar 0, mkBar 0, mkBar 0, mkBar 0, mkBar 0, mkBar 0, mkBar 0,
    mkBar 100]

/-- Modelled from the spec: the confidence formula claimed in §4.1 step 7,
`clamp01(0.4 + 0.5 * clamp01(|slope| / 3.0) + 0.1 * clamp01(N / 480))`,
with no 0.9 cap. -/
def specConfC3 (slope : F) (n : ℕ) : F :=
  clamp01 (F.fin (2/5) + F.fin (1/2) * clamp01 (F.fabs slope / F.fin 3)
    + F.fin (1/10) * clamp01 (F.fin (n : ℚ) / F.fin 480))

theorem c3Bars_slope : signalSlope c3Bars = F.fin (81/10) := by
  norm_num [signalSlope, c3Bars, mkBar, F.fsum, F.orOne, F.fabs, F.fadd, F.fdiv, F.fsub,
    F.fneg, F.falsy, List.getLastD_cons]

/-- C3 counterexample: on a 10-bar window with `|slope| = 8.1 >= 3` the code
returns confidence exactly `0.9` (the `min(0.9, _)` cap), while the claimed
uncapped formula gives `433/480 > 0.9`. -/
theorem c3_counterexample :
    signalSlope c3Bars = F.fin (81/10) ∧
    (3 : ℚ) ≤ |(81/10 : ℚ)| ∧
    (simple_signal (fun _ => 1) c3Bars).conf = F.fin (9/10) ∧
    specConfC3 (signalSlope c3Bars) c3Bars.length = F.fin (433/480) ∧
    F.fin (9/10) ≠ F.fin (433/480) := by
  have hge : ¬ c3Bars.length < 10 := by decide
  have habs : |(81/10 : ℚ)| = 81/10 := abs_of_nonneg (by norm_num)
  have h1 : clamp01 (F.fabs (F.fin (81/10)) / F.fin 3) = F.fin 1 := by
    rw [F.fabs_fin, habs, F.div_def, F.fdiv_fin_fin _ (by norm_num : (3:ℚ) ≠ 0),
      clamp01_fin]
    norm_num [min_def, max_def]
  have hlen : ((c3Bars.length : ℕ) : ℚ) = 10 := by norm_num [c3Bars]
  have h2 : clamp01 (F.fin ((c3Bars.length : ℕ) : ℚ) / F.fin 480) = F.fin (1/48) := by
    rw [hlen, F.div_def, F.fdiv_fin_fin _ (by norm_num : (480:ℚ) ≠ 0), clamp01_fin]
    norm_num [min_def, max_def]
  refine ⟨c3Bars_slope, by rw [habs]; norm_num, ?_, ?_, ?_⟩
  · rw [simple_signal_of_ge _ _ hge, c3Bars_slope]
    rw [h1, h2]
    simp only [F.add_def, F.mul_def, F.fmul_fin_fin, F.fadd_fin_fin]
    rw [F.pymin_fin_fin, clamp01_fin]
    norm_num [min_def, max_def]
  · have h2b : clamp01 (F.fin (10 : ℚ) / F.fin 480) = F.fin (1/48) := by
      rw [F.div_def, F.fdiv_fin_fin _ (by norm_num : (480:ℚ) ≠ 0), clamp01_fin]
      norm_num [min_def, max_def]
    rw [c3Bars_slope]
    unfold specConfC3
    rw [h1, hlen, h2b]
    simp only [F.add_def, F.mul_def, F.fmul_fin_fin, F.fadd_fin_fin]
    rw [clamp01_fin]
    norm_num [min_def, max_def]
  · simp only [ne_eq, F.fin.injEq]
    norm_num

/-- C3 (amended): for windows of at least 10 bars the confidence equals
`clamp01(min(0.9, 0.4 + 0.5*clamp01(|slope|/3.0) + 0.1*clamp01(N/480)))` —
the source applies a hard `min(0.9, _)` cap — and the returned confidence
never exceeds `0.9`. -/
theorem c3_amended (e : ℚ → ℚ) (ohlcv : List Bar) (h : ¬ ohlcv.length < 10) :
    (simple_signal e ohlcv).conf
      = clamp01 (F.pymin (F.fin (9/10))
          (F.fin (2/5) + F.fin (1/2) * clamp01 (F.fabs (signalSlope ohlcv) / F.fin 3)
            + F.fin (1/10) * clamp01 (F.fin (ohlcv.length : ℚ) / F.fin 480))) ∧
    ∃ q : ℚ, (simple_signal e ohlcv).conf = F.fin q ∧ q ≤ 9/10 := by
  constructor
  · rw [simple_signal_of_ge e ohlcv h]
  · obtain ⟨q, hq, _, hcap⟩ := conf_shape e ohlcv h
    exact ⟨q, hq, hcap⟩

theorem c3_amended_witness :
    (¬ c3Bars.length < 10) ∧
    ((simple_signal (fun _ => 1) c3Bars).conf
        = clamp01 (F.pymin (F.fin (9/10))
            (F.fin (2/5) + F.fin (1/2) * clamp01 (F.fabs (signalSlope c3Bars) / F.fin 3)
              + F.fin (1/10) * clamp01 (F.fin (c3Bars.length : ℚ) / F.fin 480))) ∧
      ∃ q : ℚ, (simple_signal (fun _ => 1) c3Bars).conf = F.fin q ∧ q ≤ 9/10) :=
  ⟨by decide, c3_amended (fun _ => 1) c3Bars (by decide)⟩

/-- Predicate: `x` is a finite float in `[0, 1]`. -/
def In01 (x : F) : Prop := ∃ q : ℚ, x = F.fin q ∧ 0 ≤ q ∧ q ≤ 1

/-- Ten bars, the last of which has a NaN close. -/
def c4Bars : List Bar :=
  [mkBar 0, mkBar 0, mkBar 0, mkBar 0, mkBar 0, mkBar 0, mkBar 0, mkBar 0, mkBar 0,
    ⟨F.fin 0, F.fin 0, F.fin 0, F.fin 0, F.nan, F.fin 0⟩]

theorem c4Bars_slope : signalSlope c4Bars = F.nan := by
  norm_num [signalSlope, c4Bars, mkBar, F.fsum, F.orOne, F.fabs, F.fadd, F.fdiv, F.fsub,
    F.fneg, F.falsy, List.getLastD_cons]

/-- C4 counterexample: a 10-bar window containing a NaN close makes the NaN
slope propagate into both scores, which the final `clamp01` maps to `0.0`,
so `longScore + shortScore = 0`, not `1`. -/
theorem c4_counterexample :
    (simple_signal (fun _ => 1) c4Bars).long = F.fin 0 ∧
    (simple_signal (fun _ => 1) c4Bars).short = F.fin 0 ∧
    ¬ ((simple_signal (fun _ => 1) c4Bars).long + (simple_signal (fun _ => 1) c4Bars).short
        = F.fin 1) := by
  have hge : ¬ c4Bars.length < 10 := by decide
  have hl : (simple_signal (fun _ => 1) c4Bars).long = F.fin 0 := by
    rw [simple_signal_of_ge _ _ hge, c4Bars_slope]
    simp [F.fexpWith, F.fneg, F.neg_def, F.fadd, F.add_def, F.fdiv, F.div_def, clamp01,
      F.isFinite]
  have hsh : (simple_signal (fun _ => 1) c4Bars).short = F.fin 0 := by
    rw [simple_signal_of_ge _ _ hge, c4Bars_slope]
    simp [F.fexpWith, F.fneg, F.neg_def, F.fadd, F.add_def, F.fdiv, F.div_def, F.fsub,
      F.sub_def, clamp01, F.isFinite]
  refine ⟨hl, hsh, ?_⟩
  rw [hl, hsh]
  simp only [F.add_def, F.fadd_fin_fin, ne_eq, F.fin.injEq]
  norm_num

set_option maxRecDepth 8000 in
/-- C4 (amended): the three outputs are always finite values in `[0, 1]`;
when every close in the window is finite, `longScore + shortScore = 1`
exactly.  (With non-finite closes the final `clamp01` maps NaN scores to
`0.0` and the sum can differ from 1.) -/
theorem c4_amended (e : ℚ → ℚ) (he : ∀ q : ℚ, 0 < e q) (ohlcv : List Bar) :
    In01 (simple_signal e ohlcv).long ∧ In01 (simple_signal e ohlcv).short ∧
    In01 (simple_signal e ohlcv).conf ∧
    ((∀ b ∈ ohlcv, b.close.isFinite = true) →
      (simple_signal e ohlcv).long + (simple_signal e ohlcv).short = F.fin 1) := by
  by_cases h : ohlcv.length < 10
  · have hv : simple_signal e ohlcv = ⟨F.fin (1/2), F.fin (1/2), F.fin (2/5)⟩ := by
      simp [simple_signal, h]
    refine ⟨⟨1/2, by rw [hv], by norm_num, by norm_num⟩,
      ⟨1/2, by rw [hv], by norm_num, by norm_num⟩,
      ⟨2/5, by rw [hv], by norm_num, by norm_num⟩, fun _ => ?_⟩
    rw [hv]
    simp only [F.add_def, F.fadd_fin_fin, F.fin.injEq]
    norm_num
  · rw [simple_signal_of_ge e ohlcv h]
    refine ⟨clamp01_in01 _, clamp01_in01 _, clamp01_in01 _, fun hfin => ?_⟩
    obtain ⟨s, hs⟩ := signalSlope_fin ohlcv (not_lt.mp h) hfin
    have hepos : (0 : ℚ) < e (-s) := he (-s)
    have hdpos : (0 : ℚ) < 1 + e (-s) := by linarith
    have hden : (1 : ℚ) + e (-s) ≠ 0 := ne_of_gt hdpos
    have hL0 : 0 ≤ 1 / (1 + e (-s)) := le_of_lt (div_pos one_pos hdpos)
    have hL1 : 1 / (1 + e (-s)) ≤ 1 := by
      rw [div_le_one hdpos]; linarith
    have hlong : clamp01 (F.fin 1 / (F.fin 1 + F.fexpWith e (-signalSlope ohlcv)))
        = F.fin (1 / (1 + e (-s))) := by
      rw [hs]
      simp only [F.neg_def, F.fneg_fin, F.fexpWith, F.add_def, F.fadd_fin_fin, F.div_def]
      rw [F.fdiv_fin_fin _ hden, clamp01_fin, min_eq_right hL1, max_eq_right hL0]
    have hshort : clamp01 (F.fin 1 - F.fin 1 / (F.fin 1 + F.fexpWith e (-signalSlope ohlcv)))
        = F.fin (1 - 1 / (1 + e (-s))) := by
      rw [hs]
      simp only [F.neg_def, F.fneg_fin, F.fexpWith, F.add_def, F.fadd_fin_fin, F.div_def,
        F.sub_def]
      rw [F.fdiv_fin_fin _ hden]
      simp only [F.fsub_fin_fin]
      rw [clamp01_fin, min_eq_right (by linarith), max_eq_right (by linarith)]
    rw [hlong, hshort]
    simp only [F.add_def, F.fadd_fin_fin, F.fin.injEq]
    ring

theorem c4_amended_witness :
    (simple_signal (fun _ => 1) c3Bars).long + (simple_signal (fun _ => 1) c3Bars).short
      = F.fin 1 :=
  (c4_amended (fun _ => 1) (fun _ => one_pos) c3Bars).2.2.2 (by decide)

theorem freqA_below1 {q : ℚ} (h : q < 1) : freqScoreA (F.fin q) = F.fin q := by
  simp [freqScoreA, h]

theorem freqA_1to5 {q : ℚ} (h1 : 1 ≤ q) (h5 : q < 5) :
    freqScoreA (F.fin q) = F.fin (4/5 + (q - 1) * (1/20)) := by
  have hn1 : ¬ q < 1 := not_lt.mpr h1
  have hn20 : ¬ 20 < q := by linarith
  have hn5 : ¬ 5 ≤ q := not_le.mpr h5
  simp [freqScoreA, hn1, hn20, hn5, h5]

theorem freqA_plateau {q : ℚ} (h5 : 5 ≤ q) (h15 : q ≤ 15) :
    freqScoreA (F.fin q) = F.fin 1 := by
  have hn1 : ¬ q < 1 := by linarith
  have hn20 : ¬ 20 < q := by linarith
  simp [freqScoreA, hn1, hn20, h5, h15]

theorem freqA_15to20 {q : ℚ} (h15 : 15 < q) (h20 : q ≤ 20) :
    freqScoreA (F.fin q) = F.fin (1 - (q - 15) * (1/25)) := by
  have hn1 : ¬ q < 1 := by linarith
  have hn20 : ¬ 20 < q := not_lt.mpr h20
  have hn15 : ¬ q ≤ 15 := not_le.mpr h15
  have hn5 : ¬ q < 5 := by linarith
  have h5 : (5 : ℚ) ≤ q := by linarith
  simp [freqScoreA, hn1, hn20, hn15, hn5, h5]

theorem freqA_above20 {q : ℚ} (h : 20 < q) :
    freqScoreA (F.fin q) = F.fin (max (3/10) (1 - (q - 20) / 30)) := by
  have hn1 : ¬ q < 1 := by linarith
  simp only [freqScoreA, F.blt_fin_fin, decide_eq_true_eq, hn1, if_false, h, if_true]
  simp only [F.sub_def, F.fsub_fin_fin, F.div_def,
    F.fdiv_fin_fin _ (by norm_num : (30:ℚ) ≠ 0), F.fsub_fin_fin, F.pymax_fin_fin]

/-- C7: Variant A's trade-frequency score is the bell-shaped piecewise
function of `tradesPerWeek = tradeCount/backtestDays*7`: linear below 1,
`0.8 + (tpw-1)*0.05` on `[1,5)`, exactly `1.0` on the 5-15 plateau, linear
decay `1.0 → 0.8` on `(15,20]`, and `max(0.3, 1-(tpw-20)/30)` above 20; in
particular 5, 10, 15 score exactly 1.0 while 0.5 and 25 score strictly
less. -/
theorem c7_freq_score (q : ℚ) :
    (q < 1 → freqScoreA (F.fin q) = F.fin q) ∧
    (1 ≤ q → q < 5 → freqScoreA (F.fin q) = F.fin (4/5 + (q - 1) * (1/20))) ∧
    (5 ≤ q → q ≤ 15 → freqScoreA (F.fin q) = F.fin 1) ∧
    (15 < q → q ≤ 20 → freqScoreA (F.fin q) = F.fin (1 - (q - 15) * (1/25))) ∧
    (20 < q → freqScoreA (F.fin q) = F.fin (max (3/10) (1 - (q - 20) / 30))) ∧
    freqScoreA (F.fin 5) = F.fin 1 ∧
    freqScoreA (F.fin 10) = F.fin 1 ∧
    freqScoreA (F.fin 15) = F.fin 1 ∧
    (∃ a : ℚ, freqScoreA (F.fin (1/2)) = F.fin a ∧ a < 1) ∧
    (∃ b : ℚ, freqScoreA (F.fin 25) = F.fin b ∧ b < 1) ∧
    (∀ (tc : ℕ) (d : ℚ), 1 ≤ d →
      tradesPerWeekA tc (F.fin d) = F.fin ((tc : ℚ) / d * 7)) := by
  refine ⟨freqA_below1, freqA_1to5, freqA_plateau, freqA_15to20, freqA_above20,
    freqA_plateau (by norm_num) (by norm_num),
    freqA_plateau (by norm_num) (by norm_num),
    freqA_plateau (by norm_num) (by norm_num),
    ⟨1/2, freqA_below1 (by norm_num), by norm_num⟩,
    ⟨max (3/10) (1 - (25 - 20) / 30), freqA_above20 (by norm_num), ?_⟩,
    ?_⟩
  · rw [max_lt_iff]
    constructor <;> norm_num
  · intro tc d hd
    have hne : ¬ F.blt (F.fin d) (F.fin 1) = true := by
      simp [F.blt_fin_fin]
      linarith
    have hd0 : d ≠ 0 := by linarith
    unfold tradesPerWeekA
    rw [F.pymax, if_neg hne]
    simp only [F.div_def, F.mul_def]
    rw [F.fdiv_fin_fin _ hd0]
    simp only [F.fmul_fin_fin]

/-- Evaluates C7 at tradesPerWeek 3 (inside the 1-5 ramp): the score is
0.8 + 2*0.05 = 0.9. -/
theorem c7_witness : freqScoreA (F.fin 3) = F.fin (9/10) := by
  have h := (c7_freq_score 3).2.1 (by norm_num) (by norm_num)
  rw [h]
  norm_num

/-- C5: with `tradeCount == 0` each of the three variants returns exactly
`100.0`, regardless of every other field of the summary. -/
theorem c5_zero_trades (sq : ℚ → ℚ) (s : Results) :
    hyperoptLossBalanced sq s 0 = F.fin 100 ∧
    hyperoptLossBalancedV2 s 0 = F.fin 100 ∧
    hyperoptLossConservative s 0 = F.fin 100 := by
  refine ⟨?_, ?_, ?_⟩ <;>
    simp [hyperoptLossBalanced, hyperoptLossBalancedV2, hyperoptLossConservative]

/-- A summary triggering both the severe-loss gate (`profitFactor = -1 ≤ 0`)
and the drawdown gate (`maxDrawdown 60% > 50`). -/
def c2Summary : Results :=
  { winrate := F.fin (11/20), avg_profit_ratio := F.fin (1/50),
    avg_loss_ratio := F.fin (-1/100), profit_factor := some (F.fin (-1)),
    backtest_days := F.fin 70, max_drawdown := F.fin (3/5),
    profit_total_pct := F.fin 12 }

/-- C2 counterexample: with both `profitFactor ≤ 0` and `maxDrawdown% > 50`,
Variant A's `if/elif` chain lets the FIRST matching gate win: the loss is
`-0.1`, not the claimed `-0.2`. -/
theorem c2_counterexample :
    F.ble (pfSan c2Summary.profit_factor) (F.fin 0) = true ∧
    F.blt (F.fin 50) (F.fabs c2Summary.max_drawdown * F.fin 100) = true ∧
    hyperoptLossBalanced (fun _ => 0) c2Summary 50 = F.fin (-(1/10)) ∧
    F.fin (-(1/10)) ≠ F.fin (-(1/5)) := by
  have h1 : (F.ble (pfSan c2Summary.profit_factor) (F.fin 0)
      || F.ble c2Summary.profit_total_pct (F.fin (-10))) = true := by
    norm_num [c2Summary, pfSan, F.isNan, F.ble_fin_fin]
  refine ⟨?_, ?_, ?_, ?_⟩
  · norm_num [c2Summary, pfSan, F.isNan, F.ble_fin_fin]
  · norm_num [c2Summary, F.fabs_fin, F.mul_def, F.fmul_fin_fin, F.blt_fin_fin,
      abs_of_nonneg]
  · simp only [hyperoptLossBalanced]
    rw [if_neg (by norm_num : ¬ (50 = 0))]
    simp [h1, F.fneg]
  · simp only [ne_eq, F.fin.injEq]
    norm_num

/-- C2 (amended): Variant A's hard override gates form an `if/elif` chain
evaluated in a fixed sequence in which the FIRST matching gate determines
`finalScore`: `pf ≤ 0 ∨ totalReturn ≤ -10` gives 0.1 (loss -0.1) no matter
which later gates also hold; `winRate% < 20` gives 0.2 only when the first
gate fails; `maxDrawdown% > 50` gives 0.2 only when both earlier gates
fail.  An input with both `profitFactor ≤ 0` and `maxDrawdown% > 50` yields
`finalScore = 0.1` and loss `-0.1`. -/
theorem c2_amended (sq : ℚ → ℚ) (s : Results) (tc : ℕ) (htc : ¬ tc = 0) :
    ((F.ble (pfSan s.profit_factor) (F.fin 0)
        || F.ble s.profit_total_pct (F.fin (-10))) = true →
      hyperoptLossBalanced sq s tc = F.fin (-(1/10))) ∧
    ((F.ble (pfSan s.profit_factor) (F.fin 0)
        || F.ble s.profit_total_pct (F.fin (-10))) = false →
      F.blt (s.winrate * F.fin 100) (F.fin 20) = true →
      hyperoptLossBalanced sq s tc = F.fin (-(1/5))) ∧
    ((F.ble (pfSan s.profit_factor) (F.fin 0)
        || F.ble s.profit_total_pct (F.fin (-10))) = false →
      F.blt (s.winrate * F.fin 100) (F.fin 20) = false →
      F.blt (F.fin 50) (F.fabs s.max_drawdown * F.fin 100) = true →
      hyperoptLossBalanced sq s tc = F.fin (-(1/5))) := by
  refine ⟨fun h1 => ?_, fun h1 h2 => ?_, fun h1 h2 h3 => ?_⟩
  · simp only [hyperoptLossBalanced]
    rw [if_neg htc]
    simp [h1, F.fneg]
  · simp only [F.mul_def] at h2
    simp only [hyperoptLossBalanced]
    rw [if_neg htc]
    simp [h1, h2, F.fneg]
  · simp only [F.mul_def] at h2 h3
    simp only [hyperoptLossBalanced]
    rw [if_neg htc]
    simp [h1, h2, h3, F.fneg]

theorem c2_amended_witness :
    hyperoptLossBalanced (fun _ => 0) c2Summary 50 = F.fin (-(1/10)) :=
  (c2_amended (fun _ => 0) c2Summary 50 (by norm_num)).1
    (by norm_num [c2Summary, pfSan, F.isNan, F.ble_fin_fin])


/-- A summary exactly on the V2 targets for winrate (50%), risk/reward
(1.5) and profit factor (1.3), with `maxDrawdown% = 5`, i.e. 10 points
below the drawdown target of 15. -/
def c8Summary : Results :=
  { winrate := F.fin (1/2), avg_profit_ratio := F.fin (3/100),
    avg_loss_ratio := F.fin (-1/50), profit_factor := some (F.fin (13/10)),
    backtest_days := F.fin 70, max_drawdown := F.fin (1/20),
    profit_total_pct := F.fin 15 }

/-- Modelled from the spec: the §4.2 Variant B balance score with a
symmetric relative deviation for every target, drawdown included
(`|maxdd - 15| / 15`). -/
def specBalanceScoreV2 (winrate rr pf maxdd : ℚ) : ℚ :=
  1 / (1 + |winrate - 50| / 50 + |rr - 3/2| / (3/2) + |pf - 13/10| / (13/10)
    + |maxdd - 15| / 15)

/-- C8 counterexample: at `maxDrawdown% = 5`, below the 15 target, the
code's one-sided drawdown penalty contributes 0, so the balance score is 1
and the V2 loss at the on-target summary is exactly `-1`; the claimed
symmetric formula would contribute `|5-15|/15 = 2/3` and give balance score
`3/5` instead. -/
theorem c8_counterexample :
    balanceScoreV2 (F.fin 50) (F.fin (3/2)) (F.fin (13/10)) (F.fin 5) = F.fin 1 ∧
    specBalanceScoreV2 50 (3/2) (13/10) 5 = 3/5 ∧
    (1 : ℚ) ≠ 3/5 ∧
    hyperoptLossBalancedV2 c8Summary 50 = F.fin (-1) := by
  refine ⟨?_, ?_, by norm_num, ?_⟩
  · norm_num [balanceScoreV2, F.sub_def, F.fsub_fin_fin, F.fabs_fin, F.div_def, F.fdiv,
      F.add_def, F.fadd_fin_fin, F.pymax_fin_fin, max_def]
  · norm_num [specBalanceScoreV2, abs_of_nonpos]
  · norm_num [hyperoptLossBalancedV2, balanceScoreV2, tradesPerWeekA, pfOr0, c8Summary,
      F.sub_def, F.fsub_fin_fin, F.fabs_fin, F.div_def, F.fdiv, F.add_def, F.fadd_fin_fin,
      F.mul_def, F.fmul_fin_fin, F.pymax, F.pymin, F.blt_fin_fin, F.ble_fin_fin,
      F.bne0_fin, F.falsy_fin, F.fneg, max_def, min_def, abs_of_nonneg, abs_of_nonpos]

/-- C8 (amended): V2's balance score is `1 / (1 + sum)` where winRate,
riskReward and profitFactor contribute symmetric relative deviations from
their targets (50, 1.5, 1.3), but drawdown contributes the one-sided
penalty `max(0, (maxdd-15)/15)`: a drawdown below the 15 target contributes
zero, not `|maxdd-15|/15`. -/
theorem c8_amended (w r p d : ℚ) :
    balanceScoreV2 (F.fin w) (F.fin r) (F.fin p) (F.fin d)
      = F.fin (1 / (1 + |w - 50| / 50 + |r - 3/2| / (3/2) + |p - 13/10| / (13/10)
          + max 0 ((d - 15) / 15))) ∧
    (d ≤ 15 →
      balanceScoreV2 (F.fin w) (F.fin r) (F.fin p) (F.fin d)
        = F.fin (1 / (1 + |w - 50| / 50 + |r - 3/2| / (3/2) + |p - 13/10| / (13/10)))) := by
  have heq : balanceScoreV2 (F.fin w) (F.fin r) (F.fin p) (F.fin d)
      = F.fin (1 / (1 + |w - 50| / 50 + |r - 3/2| / (3/2) + |p - 13/10| / (13/10)
          + max 0 ((d - 15) / 15))) := by
    unfold balanceScoreV2
    rw [if_pos (by norm_num : (0:ℚ) < 3/2), if_pos (by norm_num : (0:ℚ) < 13/10)]
    simp only [F.sub_def, F.fsub_fin_fin, F.fabs_fin, F.div_def, F.add_def]
    rw [F.fdiv_fin_fin _ (by norm_num : (50:ℚ) ≠ 0),
      F.fdiv_fin_fin _ (by norm_num : (3/2:ℚ) ≠ 0),
      F.fdiv_fin_fin _ (by norm_num : (13/10:ℚ) ≠ 0),
      F.fdiv_fin_fin _ (by norm_num : (15:ℚ) ≠ 0),
      F.pymax_fin_fin]
    simp only [F.fadd_fin_fin]
    have h1 : 0 ≤ |w - 50| / 50 := by positivity
    have h2 : 0 ≤ |r - 3/2| / (3/2) := by positivity
    have h3 : 0 ≤ |p - 13/10| / (13/10) := by positivity
    have h4 : (0:ℚ) ≤ max 0 ((d - 15) / 15) := le_max_left _ _
    have hD : 1 + |w - 50| / 50 + |r - 3/2| / (3/2) + |p - 13/10| / (13/10)
        + max 0 ((d - 15) / 15) ≠ 0 := by
      intro h0
      linarith
    rw [F.fdiv_fin_fin _ hD]
  refine ⟨heq, fun hd => ?_⟩
  rw [heq]
  have hdd : (d - 15) / 15 ≤ (0:ℚ) := by
    rw [div_le_iff₀ (by norm_num : (0:ℚ) < 15)]
    linarith
  rw [max_eq_left hdd, add_zero]

theorem c8_amended_witness :
    balanceScoreV2 (F.fin 50) (F.fin (3/2)) (F.fin (13/10)) (F.fin 5)
      = F.fin (1 / (1 + |(50:ℚ) - 50| / 50 + |(3/2:ℚ) - 3/2| / (3/2)
          + |(13/10:ℚ) - 13/10| / (13/10))) :=
  (c8_amended 50 (3/2) (13/10) 5).2 (by norm_num)

theorem fin_add {x y : F} (hx : ∃ a, x = F.fin a) (hy : ∃ b, y = F.fin b) :
    ∃ c, x + y = F.fin c := by
  obtain ⟨a, rfl⟩ := hx
  obtain ⟨b, rfl⟩ := hy
  exact ⟨a + b, rfl⟩

theorem fin_sub {x y : F} (hx : ∃ a, x = F.fin a) (hy : ∃ b, y = F.fin b) :
    ∃ c, x - y = F.fin c := by
  obtain ⟨a, rfl⟩ := hx
  obtain ⟨b, rfl⟩ := hy
  exact ⟨a - b, by simp⟩

theorem fin_mul {x y : F} (hx : ∃ a, x = F.fin a) (hy : ∃ b, y = F.fin b) :
    ∃ c, x * y = F.fin c := by
  obtain ⟨a, rfl⟩ := hx
  obtain ⟨b, rfl⟩ := hy
  exact ⟨a * b, rfl⟩

theorem fin_div {x y : F} (hx : ∃ a, x = F.fin a) (hy : ∃ b, y = F.fin b ∧ b ≠ 0) :
    ∃ c, x / y = F.fin c := by
  obtain ⟨a, rfl⟩ := hx
  obtain ⟨b, rfl, hb⟩ := hy
  exact ⟨a / b, by rw [F.div_def, F.fdiv_fin_fin _ hb]⟩

theorem fin_fabs {x : F} (hx : ∃ a, x = F.fin a) : ∃ c, F.fabs x = F.fin c := by
  obtain ⟨a, rfl⟩ := hx
  exact ⟨|a|, rfl⟩

theorem fin_pymin {x y : F} (hx : ∃ a, x = F.fin a) (hy : ∃ b, y = F.fin b) :
    ∃ c, F.pymin x y = F.fin c := by
  obtain ⟨a, rfl⟩ := hx
  obtain ⟨b, rfl⟩ := hy
  exact ⟨min a b, F.pymin_fin_fin a b⟩

theorem fin_pymax {x y : F} (hx : ∃ a, x = F.fin a) (hy : ∃ b, y = F.fin b) :
    ∃ c, F.pymax x y = F.fin c := by
  obtain ⟨a, rfl⟩ := hx
  obtain ⟨b, rfl⟩ := hy
  exact ⟨max a b, F.pymax_fin_fin a b⟩

theorem isFinite_fneg (z : F) : (F.fneg z).isFinite = z.isFinite := by
  cases z <;> rfl

/-- Variant A's sanitization of a declared-domain profit factor (null, NaN
or finite) always returns a finite value. -/
theorem pfSan_fin {pfv : Option F}
    (h : pfv = none ∨ pfv = some F.nan ∨ ∃ q, pfv = some (F.fin q)) :
    ∃ q, pfSan pfv = F.fin q := by
  rcases h with rfl | rfl | ⟨q, rfl⟩
  · exact ⟨0, rfl⟩
  · exact ⟨0, rfl⟩
  · exact ⟨q, rfl⟩

/-- Variant A's risk/reward computation is finite on finite inputs (the
division is guarded by `avg_loss != 0`). -/
theorem rrA_fin {x y : F} (hx : ∃ a, x = F.fin a) (hy : ∃ b, y = F.fin b) :
    ∃ q, (if F.bne0 y = true then F.fabs (x / y)
      else if F.ble x (F.fin 0) = true then F.fin 0 else F.fin 10) = F.fin q := by
  obtain ⟨a, rfl⟩ := hx
  obtain ⟨b, rfl⟩ := hy
  by_cases hb : b = 0
  · subst hb
    rw [if_neg (by simp [F.bne0_fin])]
    by_cases ha : a ≤ 0
    · rw [if_pos (by simp [F.ble_fin_fin, ha])]
      exact ⟨0, rfl⟩
    · rw [if_neg (by simp [F.ble_fin_fin, ha])]
      exact ⟨10, rfl⟩
  · rw [if_pos (by simp [F.bne0_fin, hb])]
    exact fin_fabs (fin_div ⟨a, rfl⟩ ⟨b, rfl, hb⟩)

/-- `max(total_days, 1)` keeps the denominator nonzero, so the
trades-per-week value is finite on finite day counts. -/
theorem tpwA_fin (tc : ℕ) {days : F} (hd : ∃ q, days = F.fin q) :
    ∃ q, tradesPerWeekA tc days = F.fin q := by
  obtain ⟨d, rfl⟩ := hd
  unfold tradesPerWeekA
  rw [F.pymax_fin_fin]
  have hne : max d 1 ≠ 0 := ne_of_gt (lt_of_lt_of_le zero_lt_one (le_max_right d 1))
  exact fin_mul (fin_div ⟨(tc : ℚ), rfl⟩ ⟨max d 1, rfl, hne⟩) ⟨7, rfl⟩

theorem freqScoreA_fin (q : ℚ) : ∃ r, freqScoreA (F.fin q) = F.fin r := by
  by_cases h1 : q < 1
  · exact ⟨q, freqA_below1 h1⟩
  by_cases h20 : 20 < q
  · exact ⟨_, freqA_above20 h20⟩
  by_cases h5 : q < 5
  · exact ⟨_, freqA_1to5 (not_lt.mp h1) h5⟩
  by_cases h15 : q ≤ 15
  · exact ⟨1, freqA_plateau (not_lt.mp h5) h15⟩
  · exact ⟨_, freqA_15to20 (not_le.mp h15) (not_lt.mp h20)⟩

theorem samplePenaltyA_fin (tc : ℕ) : ∃ q, samplePenaltyA tc = F.fin q := by
  unfold samplePenaltyA
  split_ifs <;> exact ⟨_, rfl⟩

theorem foldl_fadd_fin_nonneg :
    ∀ (l : List F) (a : ℚ), 0 ≤ a → (∀ x ∈ l, ∃ q, x = F.fin q ∧ 0 ≤ q) →
      ∃ q, l.foldl F.fadd (F.fin a) = F.fin q ∧ 0 ≤ q := by
  intro l
  induction l with
  | nil => exact fun a ha _ => ⟨a, rfl, ha⟩
  | cons x xs ih =>
      intro a ha h
      obtain ⟨qx, hx, hx0⟩ := h x (List.mem_cons_self x xs)
      subst hx
      simpa using ih (a + qx) (by linarith)
        fun y hy => h y (List.mem_cons_of_mem _ hy)

/-- `np.std` over a nonempty list of finite values is finite: the variance
is a mean of squares, hence nonnegative, and the square root of a
nonnegative value takes the finite branch. -/
theorem npStdWith_fin (sq : ℚ → ℚ) (l : List F) (hne : l ≠ [])
    (h : ∀ x ∈ l, ∃ q, x = F.fin q) : ∃ r, npStdWith sq l = F.fin r := by
  obtain ⟨qs, hqs⟩ := fsum_fin (l := l) (fun x hx => F.isFinite_iff.mpr (h x hx))
  have hlen : ((l.length : ℕ) : ℚ) ≠ 0 :=
    Nat.cast_ne_zero.mpr (Nat.pos_iff_ne_zero.mp (List.length_pos.mpr hne))
  have hmean : npMean l = F.fin (qs / (l.length : ℚ)) := by
    simp only [npMean, F.div_def]
    rw [hqs, F.fdiv_fin_fin _ hlen]
  unfold npStdWith
  simp only [hmean]
  have hmem : ∀ x ∈ l.map (fun x =>
      (x - F.fin (qs / (l.length : ℚ))) * (x - F.fin (qs / (l.length : ℚ)))),
      ∃ q, x = F.fin q ∧ 0 ≤ q := by
    intro x hx
    obtain ⟨y, hy, rfl⟩ := List.mem_map.mp hx
    obtain ⟨qy, rfl⟩ := h y hy
    simp only [F.sub_def, F.fsub_fin_fin, F.mul_def, F.fmul_fin_fin]
    exact ⟨_, rfl, mul_self_nonneg _⟩
  obtain ⟨qv, hqv, hqv0⟩ := foldl_fadd_fin_nonneg _ 0 (le_refl 0) hmem
  have hmean2 : npMean (l.map (fun x =>
      (x - F.fin (qs / (l.length : ℚ))) * (x - F.fin (qs / (l.length : ℚ)))))
      = F.fin (qv / ((l.length : ℕ) : ℚ)) := by
    simp only [npMean, F.div_def, F.fsum]
    rw [hqv, List.length_map, F.fdiv_fin_fin _ hlen]
  rw [hmean2]
  have hv0 : 0 ≤ qv / ((l.length : ℕ) : ℚ) :=
    div_nonneg hqv0 (Nat.cast_nonneg _)
  simp only [F.fsqrtWith]
  rw [if_neg (not_lt.mpr hv0)]
  exact ⟨_, rfl⟩

/-- A declared-domain summary whose profit factor is NaN. -/
def c1Summary : Results :=
  { winrate := F.fin (1/2), avg_profit_ratio := F.fin (3/100),
    avg_loss_ratio := F.fin (-1/50), profit_factor := some F.nan,
    backtest_days := F.fin 70, max_drawdown := F.fin (1/20),
    profit_total_pct := F.fin 15 }

/-- C1 counterexample: `pf = results.get("profit_factor", 0) or 0` in
StrictBalanced and Conservative replaces only falsy values; NaN is truthy
in Python, so a NaN profit factor survives and propagates to a NaN loss in
both variants — the returned float64 is not finite. -/
theorem c1_counterexample :
    pfOr0 (some F.nan) = F.nan ∧
    hyperoptLossBalancedV2 c1Summary 50 = F.nan ∧
    hyperoptLossConservative c1Summary 50 = F.nan ∧
    F.isFinite F.nan = false := by
  refine ⟨rfl, ?_, ?_, rfl⟩
  · norm_num [hyperoptLossBalancedV2, balanceScoreV2, tradesPerWeekA, pfOr0, c1Summary,
      F.sub_def, F.fsub_fin_fin, F.fabs_fin, F.div_def, F.fdiv, F.add_def, F.fadd,
      F.mul_def, F.fmul, F.pymax, F.pymin, F.blt_fin_fin, F.ble_fin_fin,
      F.bne0_fin, F.falsy_fin, F.falsy, F.fneg, F.fabs, F.fsub, F.blt, F.ble,
      max_def, min_def, abs_of_nonneg, abs_of_nonpos]
  · norm_num [hyperoptLossConservative, tradesPerWeekA, pfOr0, c1Summary,
      F.sub_def, F.fsub_fin_fin, F.fabs_fin, F.div_def, F.fdiv, F.add_def, F.fadd,
      F.mul_def, F.fmul, F.pymax, F.pymin, F.blt_fin_fin, F.ble_fin_fin,
      F.bne0_fin, F.falsy_fin, F.falsy, F.fneg, F.fabs, F.fsub, F.blt, F.ble,
      max_def, min_def, abs_of_nonneg, abs_of_nonpos]

/-- C1 (amended): Variant A (Balanced) sanitizes a null or NaN profit
factor to 0 before use and, over the declared input domain (finite fields,
profit factor null/NaN/finite), always returns a finite loss.  The V2 and
Conservative variants sanitize only a null (falsy) profit factor; a NaN
profit factor propagates to a NaN loss there (see the counterexample). -/
theorem c1_amended (sq : ℚ → ℚ) (s : Results) (tc : ℕ) (htc : ¬ tc = 0)
    (hwr : ∃ q, s.winrate = F.fin q)
    (hap : ∃ q, s.avg_profit_ratio = F.fin q)
    (hal : ∃ q, s.avg_loss_ratio = F.fin q)
    (hdays : ∃ q, s.backtest_days = F.fin q)
    (hdd : ∃ q, s.max_drawdown = F.fin q)
    (htr : ∃ q, s.profit_total_pct = F.fin q)
    (hpf : s.profit_factor = none ∨ s.profit_factor = some F.nan
      ∨ ∃ q, s.profit_factor = some (F.fin q)) :
    ((s.profit_factor = none ∨ s.profit_factor = some F.nan) →
      pfSan s.profit_factor = F.fin 0) ∧
    (hyperoptLossBalanced sq s tc).isFinite = true := by
  have hwrs : ∃ q, F.pymin (s.winrate * F.fin 100 / F.fin 55) (F.fin (3/2)) = F.fin q :=
    fin_pymin (fin_div (fin_mul hwr ⟨100, rfl⟩) ⟨55, rfl, by norm_num⟩) ⟨3/2, rfl⟩
  have hrr : ∃ q, (if F.bne0 s.avg_loss_ratio = true
      then F.fabs (s.avg_profit_ratio / s.avg_loss_ratio)
      else if F.ble s.avg_profit_ratio (F.fin 0) = true then F.fin 0 else F.fin 10)
      = F.fin q := rrA_fin hap hal
  have hrrs : ∃ q, F.pymin ((if F.bne0 s.avg_loss_ratio = true
      then F.fabs (s.avg_profit_ratio / s.avg_loss_ratio)
      else if F.ble s.avg_profit_ratio (F.fin 0) = true then F.fin 0 else F.fin 10)
        / F.fin (6/5)) (F.fin 2) = F.fin q :=
    fin_pymin (fin_div hrr ⟨6/5, rfl, by norm_num⟩) ⟨2, rfl⟩
  have hpfs : ∃ q, F.pymin (pfSan s.profit_factor / F.fin (13/10)) (F.fin 2) = F.fin q :=
    fin_pymin (fin_div (pfSan_fin hpf) ⟨13/10, rfl, by norm_num⟩) ⟨2, rfl⟩
  have hret : ∃ q, F.pymax (F.fin 0)
      (F.pymin (s.profit_total_pct / F.fin 10) (F.fin (3/2))) = F.fin q :=
    fin_pymax ⟨0, rfl⟩ (fin_pymin (fin_div htr ⟨10, rfl, by norm_num⟩) ⟨3/2, rfl⟩)
  have hdds : ∃ q, F.pymax (F.fin 0)
      (F.fin 1 - F.fabs s.max_drawdown * F.fin 100 / F.fin 20) = F.fin q :=
    fin_pymax ⟨0, rfl⟩ (fin_sub ⟨1, rfl⟩
      (fin_div (fin_mul (fin_fabs hdd) ⟨100, rfl⟩) ⟨20, rfl, by norm_num⟩))
  have hfrq : ∃ q, freqScoreA (tradesPerWeekA tc s.backtest_days) = F.fin q := by
    obtain ⟨qt, hqt⟩ := tpwA_fin tc hdays
    rw [hqt]
    exact freqScoreA_fin qt
  have hsample : ∃ q, samplePenaltyA tc = F.fin q := samplePenaltyA_fin tc
  have hstd : ∃ q, npStdWith sq
      [F.pymin (s.winrate * F.fin 100 / F.fin 55) (F.fin (3/2)),
        F.pymin ((if F.bne0 s.avg_loss_ratio = true
          then F.fabs (s.avg_profit_ratio / s.avg_loss_ratio)
          else if F.ble s.avg_profit_ratio (F.fin 0) = true then F.fin 0 else F.fin 10)
            / F.fin (6/5)) (F.fin 2),
        F.pymin (pfSan s.profit_factor / F.fin (13/10)) (F.fin 2),
        F.pymax (F.fin 0) (F.fin 1 - F.fabs s.max_drawdown * F.fin 100 / F.fin 20),
        freqScoreA (tradesPerWeekA tc s.backtest_days)] = F.fin q := by
    apply npStdWith_fin
    · simp
    · intro x hx
      simp only [List.mem_cons, List.not_mem_nil, or_false] at hx
      rcases hx with rfl | rfl | rfl | rfl | rfl
      exacts [hwrs, hrrs, hpfs, hdds, hfrq]
  constructor
  · rintro (h | h) <;> rw [h] <;> rfl
  · simp only [hyperoptLossBalanced]
    rw [if_neg htc, isFinite_fneg]
    split
    · rfl
    · split
      · rfl
      · split
        · rfl
        · rw [F.isFinite_iff]
          exact fin_mul (fin_mul (fin_add
            (fin_add (fin_add (fin_add (fin_add
              (fin_mul hwrs ⟨1/5, rfl⟩) (fin_mul hrrs ⟨1/4, rfl⟩))
              (fin_mul hpfs ⟨1/4, rfl⟩))
              (fin_mul hret ⟨3/20, rfl⟩))
              (fin_mul hdds ⟨3/20, rfl⟩))
            (fin_mul (fin_pymax ⟨0, rfl⟩ (fin_sub ⟨1, rfl⟩ hstd)) ⟨1/10, rfl⟩))
            hfrq) hsample

theorem c1_amended_witness :
    (hyperoptLossBalanced (fun _ => 0) c8Summary 50).isFinite = true :=
  (c1_amended (fun _ => 0) c8Summary 50 (by norm_num) ⟨_, rfl⟩ ⟨_, rfl⟩ ⟨_, rfl⟩
    ⟨_, rfl⟩ ⟨_, rfl⟩ ⟨_, rfl⟩ (Or.inr (Or.inr ⟨13/10, rfl⟩))).2

/-- The §8 end-to-end scenario summary: winRate 0.55, avgProfitRatio 0.02,
avgLossRatio -0.01, profitFactor 1.4, backtestDays 70, maxDrawdown 0.12,
totalReturnPct 12. -/
def c6Summary : Results :=
  { winrate := F.fin (11/20), avg_profit_ratio := F.fin (1/50),
    avg_loss_ratio := F.fin (-1/100), profit_factor := some (F.fin (7/5)),
    backtest_days := F.fin 70, max_drawdown := F.fin (3/25),
    profit_total_pct := F.fin 12 }

/-- C6: on the §8 scenario with 50 trades, no hard override gate triggers
and Variant A returns a loss strictly between -1.4 and -0.8 (the loss is
`-(4391/3900 + bonus)` with the stability bonus in `[0, 0.1]`, since the
np.std value is nonnegative). -/
theorem c6_scenario (sq : ℚ → ℚ) (hsq : ∀ q : ℚ, 0 ≤ sq q) :
    (F.ble (pfSan c6Summary.profit_factor) (F.fin 0)
      || F.ble c6Summary.profit_total_pct (F.fin (-10))) = false ∧
    F.blt (c6Summary.winrate * F.fin 100) (F.fin 20) = false ∧
    F.blt (F.fin 50) (F.fabs c6Summary.max_drawdown * F.fin 100) = false ∧
    ∃ v : ℚ, hyperoptLossBalanced sq c6Summary 50 = F.fin v
      ∧ -(14/10) < v ∧ v < -(8/10) := by
  have g1 : (F.ble (pfSan c6Summary.profit_factor) (F.fin 0)
      || F.ble c6Summary.profit_total_pct (F.fin (-10))) = false := by
    norm_num [c6Summary, pfSan, F.isNan, F.ble_fin_fin]
  have g2 : F.blt (c6Summary.winrate * F.fin 100) (F.fin 20) = false := by
    norm_num [c6Summary, F.mul_def, F.fmul_fin_fin, F.blt_fin_fin]
  have g3 : F.blt (F.fin 50) (F.fabs c6Summary.max_drawdown * F.fin 100) = false := by
    norm_num [c6Summary, F.fabs_fin, F.mul_def, F.fmul_fin_fin, F.blt_fin_fin,
      abs_of_nonneg]
  have hwrs : F.pymin (c6Summary.winrate * F.fin 100 / F.fin 55) (F.fin (3/2))
      = F.fin 1 := by
    norm_num [c6Summary, F.mul_def, F.fmul_fin_fin, F.div_def, F.fdiv,
      F.pymin_fin_fin, min_def]
  have hrrs : F.pymin ((if F.bne0 c6Summary.avg_loss_ratio = true
      then F.fabs (c6Summary.avg_profit_ratio / c6Summary.avg_loss_ratio)
      else if F.ble c6Summary.avg_profit_ratio (F.fin 0) = true then F.fin 0 else F.fin 10)
        / F.fin (6/5)) (F.fin 2) = F.fin (5/3) := by
    norm_num [c6Summary, F.bne0_fin, F.fabs_fin, F.div_def, F.fdiv, F.pymin_fin_fin,
      min_def, abs_of_nonpos, abs_of_nonneg]
  have hpfs : F.pymin (pfSan c6Summary.profit_factor / F.fin (13/10)) (F.fin 2)
      = F.fin (14/13) := by
    norm_num [c6Summary, pfSan, F.isNan, F.div_def, F.fdiv, F.pymin_fin_fin, min_def]
  have hret : F.pymax (F.fin 0)
      (F.pymin (c6Summary.profit_total_pct / F.fin 10) (F.fin (3/2))) = F.fin (6/5) := by
    norm_num [c6Summary, F.div_def, F.fdiv, F.pymin_fin_fin, F.pymax_fin_fin,
      min_def, max_def]
  have hdds : F.pymax (F.fin 0)
      (F.fin 1 - F.fabs c6Summary.max_drawdown * F.fin 100 / F.fin 20)
      = F.fin (2/5) := by
    norm_num [c6Summary, F.fabs_fin, F.mul_def, F.fmul_fin_fin, F.div_def, F.fdiv,
      F.sub_def, F.fsub_fin_fin, F.pymax_fin_fin, max_def, abs_of_nonneg]
  have hfreq : freqScoreA (tradesPerWeekA 50 c6Summary.backtest_days) = F.fin 1 := by
    have htpw : tradesPerWeekA 50 c6Summary.backtest_days = F.fin 5 := by
      norm_num [tradesPerWeekA, c6Summary, F.pymax, F.blt_fin_fin, F.div_def, F.fdiv,
        F.mul_def, F.fmul_fin_fin]
    rw [htpw]
    exact freqA_plateau (by norm_num) (by norm_num)
  have hsample : samplePenaltyA 50 = F.fin 1 := by
    norm_num [samplePenaltyA]
  have hstd : npStdWith sq [F.fin 1, F.fin (5/3), F.fin (14/13), F.fin (2/5), F.fin 1]
      = F.fin (sq (153286/950625)) := by
    norm_num [npStdWith, npMean, F.fsum, F.sub_def, F.fsub_fin_fin, F.mul_def,
      F.fmul_fin_fin, F.add_def, F.fadd_fin_fin, F.div_def, F.fdiv, F.fsqrtWith]
  refine ⟨g1, g2, g3, ?_⟩
  simp only [hyperoptLossBalanced]
  rw [if_neg (by norm_num : ¬ (50 = 0))]
  rw [hwrs, hrrs, hpfs, hret, hdds, hfreq, hsample, hstd]
  simp only [g1, g2, g3, Bool.false_eq_true, if_false]
  set t : ℚ := sq (153286/950625) with hts
  have ht0 : 0 ≤ t := hsq _
  have hb0 : 0 ≤ max 0 (1 - t) := le_max_left _ _
  have hb1 : max 0 (1 - t) ≤ 1 := max_le zero_le_one (by linarith)
  simp only [F.sub_def, F.fsub_fin_fin, F.pymax_fin_fin, F.mul_def, F.fmul_fin_fin,
    F.add_def, F.fadd_fin_fin, F.fneg]
  refine ⟨_, rfl, ?_, ?_⟩
  · rw [neg_lt_neg_iff]
    nlinarith [hb0, hb1]
  · rw [neg_lt_neg_iff]
    nlinarith [hb0, hb1]

theorem c6_witness :
    ∃ v : ℚ, hyperoptLossBalanced (fun _ => 0) c6Summary 50 = F.fin v
      ∧ -(14/10) < v ∧ v < -(8/10) :=
  (c6_scenario (fun _ => 0) (fun _ => le_refl 0)).2.2.2
